import Mathlib

/-!
Verification of the `vite-planner` task store (`src/lib/DB.ts`, `src/lib/utils.ts`).

Shallow embedding decisions:
* Timestamps: the store keeps `date` as an ISO-8601 string produced by
  `Date.toISOString()` (fixed-width, so lexicographic order coincides with
  chronological order); we model such a timestamp as a `Nat` and the SQL
  comparisons `date >= ?` / `date < ?` as `≤` / `<` on `Nat`.
* The date-fns collaborators (`startOfDay`, `endOfDay`, `startOfWeek`,
  `startOfMonth`, `startOfYear`, `subDays`, `subWeeks`, `subMonths`,
  `subYears`) and the nanoid generator are external libraries (§6 of the
  spec calls them out as collaborators); they are parameters of the
  embedding, collected in an `Env` structure.  A concrete instance
  (`testEnv`) is used for witnesses and counterexamples.
* The SQLite table is a list of rows in insertion (rowid) order;
  `ORDER BY sortOrder` is modelled by a stable insertion sort on the
  `sortOrder` key; `SELECT ... WHERE id = ?` reading one row is `find?`.
* `localStorage` is modelled as the `saved` field of the store state;
  `db.export()` / `new SQL.Database(bytes)` are modelled by an explicit
  serialization of the row list into a flat list of scalar fields.
* The TypeScript methods throw; each mutator here returns an `OpResult`
  carrying the state reached when the method returned or threw, the
  thrown message (if any), and the returned row (if any).
-/

namespace Planner

/-- A row of the `task` table, as marshalled by `DB.list` / `DB.read`:
`id TEXT, name TEXT, complete BOOLEAN, sortOrder INTEGER, period TEXT, date TEXT`. -/
structure Task where
  id : String
  name : String
  complete : Bool
  sortOrder : Nat
  period : String
  date : Nat
deriving DecidableEq, Repr

/-- The external collaborators of the store: the date-fns period functions
(acting on timestamps, see the module comment) and the nanoid id generator,
modelled as a deterministic stream indexed by how many ids were drawn. -/
structure Env where
  startOfDay : Nat → Nat
  endOfDay : Nat → Nat
  startOfWeek : Nat → Nat
  startOfMonth : Nat → Nat
  startOfYear : Nat → Nat
  subDays : Nat → Nat → Nat
  subWeeks : Nat → Nat → Nat
  subMonths : Nat → Nat → Nat
  subYears : Nat → Nat → Nat
  genId : Nat → String

/-- One scalar cell of the persisted image (a TEXT or an INTEGER value). -/
inductive Field where
  | str : String → Field
  | num : Nat → Field
deriving DecidableEq, Repr

/-- The world state owned by the store: the live `task` table (rows in rowid
order), the `localStorage` slot keyed by `PLANNER_SQLITE`, and how many ids
the generator has produced so far. -/
structure DBState where
  tasks : List Task
  saved : Option (List Field)
  seed : Nat
deriving DecidableEq, Repr

/-- Outcome of one store method: the state when the method returned or threw,
the thrown error message if it threw, and the returned row if it returned one. -/
structure OpResult where
  state : DBState
  err : Option String := none
  task : Option Task := none
deriving DecidableEq, Repr

/-- `startOfPeriod` from `src/lib/utils.ts`. -/
def startOfPeriod (E : Env) (date : Nat) (period : String) : Nat :=
  if period = "days" then E.startOfDay date
  else if period = "weeks" then E.startOfWeek date
  else if period = "months" then E.startOfMonth date
  else if period = "year" then E.startOfYear date
  else date

/-- The SQL condition `date >= startOfDay(day) AND date < endOfDay(day)`. -/
def inWindow (E : Env) (day : Nat) (t : Task) : Bool :=
  decide (E.startOfDay day ≤ t.date) && decide (t.date < E.endOfDay day)

/-- The SQL condition of the two-filter `list` query (and of `clearPeriod`):
`date >= startOfDay(day) AND date < endOfDay(day) AND period = ?`. -/
def bucketPred (E : Env) (day : Nat) (period : String) (t : Task) : Bool :=
  inWindow E day t && (t.period == period)

/-- The ordering key of `ORDER BY sortOrder`. -/
def taskLE (a b : Task) : Prop := a.sortOrder ≤ b.sortOrder

/-- Strict version of the ordering key, used to identify sorted lists with
pairwise-distinct keys. -/
def taskLT (a b : Task) : Prop := a.sortOrder < b.sortOrder

instance : DecidableRel taskLE := fun a b => Nat.decLe a.sortOrder b.sortOrder

instance : IsTotal Task taskLE := ⟨fun a b => Nat.le_total a.sortOrder b.sortOrder⟩

instance : IsTrans Task taskLE := ⟨fun _ _ _ h h' => Nat.le_trans h h'⟩

instance : IsAntisymm Task taskLT :=
  ⟨fun _ _ h h' => absurd h (Nat.lt_asymm h')⟩

/-- `ORDER BY sortOrder`: the engine returns the selected rows sorted by
`sortOrder` (stable with respect to rowid order for equal keys). -/
def sortTasks (l : List Task) : List Task := l.insertionSort taskLE

namespace DB

/-- `db.export()` followed by `JSON.stringify(Array.from(...))`: the full
serialized image of the database, modelled as the table rows flattened into
their stored scalar fields (`complete` is stored as the INTEGER 0 or 1). -/
def exportDb (ts : List Task) : List Field :=
  (ts.map fun t =>
    [Field.str t.id, Field.str t.name, Field.num (if t.complete then 1 else 0),
     Field.num t.sortOrder, Field.str t.period, Field.num t.date]).flatten

/-- `new SQL.Database(binaryArray)`: recover the table rows from a persisted
image (`complete` is read back through the `=== 1` test used by the
marshalling code). -/
def decodeRows : List Field → List Task
  | Field.str id :: Field.str name :: Field.num c :: Field.num so ::
      Field.str p :: Field.num d :: rest =>
    { id := id, name := name, complete := c == 1, sortOrder := so,
      period := p, date := d } :: decodeRows rest
  | _ => []

/-- The `DB` constructor: if the storage slot holds a saved image, load it;
otherwise create a fresh database and run the `CREATE TABLE task` statement
(an empty table). -/
def init (savedData : Option (List Field)) : DBState :=
  match savedData with
  | some img => { tasks := decodeRows img, saved := some img, seed := 0 }
  | none => { tasks := [], saved := none, seed := 0 }

/-- `save()`: `localStorage.setItem(DB_KEY, JSON.stringify(Array.from(this.db.export())))`. -/
def save (s : DBState) : DBState :=
  { s with saved := some (exportDb s.tasks) }

/-- `list(day?, period?)`: the four query modes of the source, each a
`SELECT ... ORDER BY sortOrder` over the `task` table. -/
def list (E : Env) (s : DBState) (day : Option Nat) (period : Option String) :
    List Task :=
  match day, period with
  | some d, some p => sortTasks (s.tasks.filter (bucketPred E d p))
  | some d, none => sortTasks (s.tasks.filter (inWindow E d))
  | none, some p => sortTasks (s.tasks.filter (fun t => t.period == p))
  | none, none => sortTasks s.tasks

/-- `read(id)`: `SELECT ... WHERE id = ?`, returning the first matching row
or the null variant. -/
def read (s : DBState) (id : String) : Option Task :=
  s.tasks.find? (fun t => t.id == id)

/-- `checkExists(id)`: wraps `read`; throws `Error("Not Found")` when absent. -/
def checkExists (s : DBState) (id : String) : Except String Task :=
  match read s id with
  | none => Except.error "Not Found"
  | some t => Except.ok t

/-- `create(name, day, period)`: draw a fresh id, count `list(day)` (no
period filter), normalize the date with `startOfPeriod`, insert the row with
`complete = 0` and `sortOrder = count + 1`, save, and return the freshly
read row. -/
def create (E : Env) (s : DBState) (name : String) (day : Nat)
    (period : String) : OpResult :=
  let id := E.genId s.seed
  let tasks := list E s (some day) none
  let date := startOfPeriod E day period
  let row : Task :=
    { id := id, name := name, complete := false,
      sortOrder := tasks.length + 1, period := period, date := date }
  let s1 := save { s with tasks := s.tasks ++ [row], seed := s.seed + 1 }
  { state := s1, task := read s1 id }

/-- `update(id, name)`: precondition `checkExists`, rename in place, return
the re-read row.  Note: no `save()` call in the source. -/
def update (s : DBState) (id : String) (name : String) : OpResult :=
  match checkExists s id with
  | Except.error e => { state := s, err := some e }
  | Except.ok _ =>
    let s1 :=
      { s with tasks := s.tasks.map fun t =>
          if t.id = id then { t with name := name } else t }
    { state := s1, task := read s1 id }

/-- `markComplete(id)`: precondition `checkExists`, set `complete = 1`, save,
return the re-read row. -/
def markComplete (s : DBState) (id : String) : OpResult :=
  match checkExists s id with
  | Except.error e => { state := s, err := some e }
  | Except.ok _ =>
    let s1 :=
      { s with tasks := s.tasks.map fun t =>
          if t.id = id then { t with complete := true } else t }
    let s2 := save s1
    { state := s2, task := read s2 id }

/-- `markIncomplete(id)`: precondition `checkExists`, set `complete = 0`,
save, return the re-read row. -/
def markIncomplete (s : DBState) (id : String) : OpResult :=
  match checkExists s id with
  | Except.error e => { state := s, err := some e }
  | Except.ok _ =>
    let s1 :=
      { s with tasks := s.tasks.map fun t =>
          if t.id = id then { t with complete := false } else t }
    let s2 := save s1
    { state := s2, task := read s2 id }

/-- The body of the `orderedIds.forEach` loop of `updateOrder`: validate each
id against the previously computed member set, and run
`UPDATE task SET sortOrder = index WHERE id = ?` row by row; a failed
validation throws, leaving the updates already performed in place. -/
def updateOrderLoop (members : List String) :
    List String → List Task → Nat → List Task × Option String
  | [], ts, _ => (ts, none)
  | id :: rest, ts, index =>
    if id ∈ members then
      updateOrderLoop members rest
        (ts.map fun t => if t.id = id then { t with sortOrder := index } else t)
        (index + 1)
    else
      (ts, some ("Task with id " ++ id ++
        " does not exist for the specified day."))

/-- `updateOrder(day, period, orderedIds)`: list the bucket, collect its id
set, run the validating per-row update loop, and save on success. -/
def updateOrder (E : Env) (s : DBState) (day : Nat) (period : String)
    (orderedIds : List String) : OpResult :=
  let tasks := list E s (some day) (some period)
  let taskIdsForDay := tasks.map (·.id)
  match updateOrderLoop taskIdsForDay orderedIds s.tasks 0 with
  | (ts, some e) => { state := { s with tasks := ts }, err := some e }
  | (ts, none) => { state := save { s with tasks := ts } }

/-- `delete(id)`: precondition `checkExists`, run `DELETE ... WHERE id = ?`,
re-list the `(date, period)` bucket of the deleted task, call `updateOrder`
with the surviving ids in their listed order, and save. -/
def delete (E : Env) (s : DBState) (id : String) : OpResult :=
  match checkExists s id with
  | Except.error e => { state := s, err := some e }
  | Except.ok taskToBeDeleted =>
    let s1 := { s with tasks := s.tasks.filter fun t => !(t.id == id) }
    let tasks := list E s1 (some taskToBeDeleted.date)
      (some taskToBeDeleted.period)
    let r := updateOrder E s1 taskToBeDeleted.date taskToBeDeleted.period
      ((tasks.filter fun t => !(taskToBeDeleted.id == t.id)).map (·.id))
    match r.err with
    | some e => { state := r.state, err := some e }
    | none => { state := save r.state }

/-- `copyIncompletes(day, period)`: list the previous bucket (one day, week,
month back for the matching period kind, one year back in the default
branch), filter to incomplete tasks, `create` each of their names into the
current `(day, period)`, and save. -/
def copyIncompletes (E : Env) (s : DBState) (day : Nat) (period : String) :
    OpResult :=
  let previous :=
    if period = "days" then
      list E s (some (E.startOfDay (E.subDays day 1))) (some period)
    else if period = "weeks" then
      list E s (some (E.startOfWeek (E.subWeeks day 1))) (some period)
    else if period = "months" then
      list E s (some (E.startOfMonth (E.subMonths day 1))) (some period)
    else
      list E s (some (E.startOfYear (E.subYears day 1))) (some period)
  let incompletes := previous.filter fun t => !t.complete
  let s1 := incompletes.foldl (fun st t => (create E st t.name day period).state) s
  { state := save s1 }

/-- `clearPeriod(day, period)`: `DELETE FROM task WHERE date >= ? AND
date < ? AND period = ?`, then save. -/
def clearPeriod (E : Env) (s : DBState) (day : Nat) (period : String) :
    OpResult :=
  let s1 := { s with tasks := s.tasks.filter fun t => !(bucketPred E day period t) }
  { state := save s1 }

end DB

/-- Index of the first occurrence of an id in a list of ids. -/
def idIndex (id : String) : List String → Option Nat
  | [] => none
  | i :: is => if i = id then some 0 else (idIndex id is).map (· + 1)

/-- The cumulative effect of a completed validating update loop over
`orderedIds`: a task whose id occurs in the list receives `start with its
index added` as sortOrder, any other task is untouched. -/
def applyOrder (orderedIds : List String) (start : Nat) (t : Task) : Task :=
  match idIndex t.id orderedIds with
  | some k => { t with sortOrder := start + k }
  | none => t

/-- A concrete instance of the external collaborators, used for witnesses:
timestamps are plain numbers, a day spans 10 units, a week 70, a month 300,
a year 3600, and `endOfDay` is the last unit of the day as in date-fns. -/
def testEnv : Env where
  startOfDay n := n / 10 * 10
  endOfDay n := n / 10 * 10 + 9
  startOfWeek n := n / 70 * 70
  startOfMonth n := n / 300 * 300
  startOfYear n := n / 3600 * 3600
  subDays n k := n - 10 * k
  subWeeks n k := n - 70 * k
  subMonths n k := n - 300 * k
  subYears n k := n - 3600 * k
  genId k := "T" ++ toString k

/-- A concrete store state with two tasks in the `(0, days)` bucket carrying
the sortOrders `1` and `2` that two consecutive `create` calls assign. -/
def stateAB : DBState where
  tasks :=
    [{ id := "A", name := "alpha", complete := false, sortOrder := 1,
       period := "days", date := 0 },
     { id := "B", name := "beta", complete := true, sortOrder := 2,
       period := "days", date := 0 }]
  saved := none
  seed := 0

/-- A concrete store state whose `(0, days)` bucket is dense: two tasks with
sortOrders 0 and 1. -/
def stateCD : DBState where
  tasks :=
    [{ id := "C", name := "gamma", complete := false, sortOrder := 0,
       period := "days", date := 0 },
     { id := "D", name := "delta", complete := false, sortOrder := 1,
       period := "days", date := 0 }]
  saved := none
  seed := 0

lemma sortTasks_perm (l : List Task) : List.Perm (sortTasks l) l :=
  List.perm_insertionSort taskLE l

lemma sortTasks_sorted (l : List Task) : (sortTasks l).Sorted taskLE :=
  List.sorted_insertionSort taskLE l

lemma mem_sortTasks {l : List Task} {t : Task} : t ∈ sortTasks l ↔ t ∈ l :=
  (sortTasks_perm l).mem_iff

lemma decodeRows_exportDb (ts : List Task) : DB.decodeRows (DB.exportDb ts) = ts := by
  induction ts with
  | nil => rfl
  | cons t ts ih =>
    have h : DB.exportDb (t :: ts) =
        Field.str t.id :: Field.str t.name ::
        Field.num (if t.complete then 1 else 0) :: Field.num t.sortOrder ::
        Field.str t.period :: Field.num t.date :: DB.exportDb ts := by
      simp [DB.exportDb]
    rw [h]
    simp only [DB.decodeRows, ih]
    cases t with
    | mk id name complete sortOrder period date => cases complete <;> rfl

/-- C6: `list(day, period)` returns exactly the tasks whose date lies in
the window `[startOfDay(day), endOfDay(day))` and whose period equals the
given one, sorted by sortOrder ascending; tasks failing either condition
never appear, and when nothing matches the result is the empty list rather
than an error. -/
theorem claim6_list_filter_sort (E : Env) (s : DBState) (day : Nat)
    (period : String) :
    (∀ t : Task, t ∈ DB.list E s (some day) (some period) ↔
      t ∈ s.tasks ∧ (E.startOfDay day ≤ t.date ∧ t.date < E.endOfDay day) ∧
        t.period = period)
    ∧ (DB.list E s (some day) (some period)).Sorted taskLE
    ∧ ((∀ t ∈ s.tasks,
          ¬((E.startOfDay day ≤ t.date ∧ t.date < E.endOfDay day) ∧
            t.period = period)) →
        DB.list E s (some day) (some period) = []) := by
  refine ⟨fun t => ?_, sortTasks_sorted _, fun h => ?_⟩
  · simp [DB.list, mem_sortTasks, List.mem_filter, bucketPred, inWindow,
      and_assoc]
  · have hf : s.tasks.filter (bucketPred E day period) = [] := by
      rw [List.filter_eq_nil_iff]
      intro t ht
      have := h t ht
      simp [bucketPred, inWindow, and_assoc]
      intro h1 h2
      intro hp
      exact this ⟨⟨h1, h2⟩, hp⟩
    simp [DB.list, hf, sortTasks]

theorem claim6_list_filter_sort_witness :
    ({ id := "A", name := "alpha", complete := false, sortOrder := 1,
       period := "days", date := 0 } : Task)
      ∈ DB.list testEnv stateAB (some 3) (some "days") ∧
    DB.list testEnv stateAB (some 20) (some "days") = [] :=
  ⟨((claim6_list_filter_sort testEnv stateAB 3 "days").1 _).mpr (by decide),
   (claim6_list_filter_sort testEnv stateAB 20 "days").2.2 (by decide)⟩

/-- C3: `create(name, day, period)` inserts (and returns, freshly re-read) a
row whose sortOrder is the length of `list(day)` with no period filter plus
one, whose date is the `startOfPeriod` normalization of `day`, and whose
complete flag is false. -/
theorem claim3_create_row (E : Env) (s : DBState) (name : String) (day : Nat)
    (period : String) (hfresh : ∀ t ∈ s.tasks, t.id ≠ E.genId s.seed) :
    (DB.create E s name day period).task =
      some { id := E.genId s.seed, name := name, complete := false,
             sortOrder := (DB.list E s (some day) none).length + 1,
             period := period, date := startOfPeriod E day period }
    ∧ (DB.create E s name day period).task
        = DB.read (DB.create E s name day period).state (E.genId s.seed)
    ∧ (period = "days" → startOfPeriod E day period = E.startOfDay day)
    ∧ (period = "weeks" → startOfPeriod E day period = E.startOfWeek day)
    ∧ (period = "months" → startOfPeriod E day period = E.startOfMonth day)
    ∧ (period = "year" → startOfPeriod E day period = E.startOfYear day) := by
  refine ⟨?_, rfl, ?_, ?_, ?_, ?_⟩
  · show DB.read _ _ = _
    rw [DB.read]
    simp only [DB.save]
    rw [List.find?_append]
    have h1 : s.tasks.find? (fun t => t.id == E.genId s.seed) = none := by
      rw [List.find?_eq_none]
      intro t ht
      simpa using hfresh t ht
    rw [h1]
    simp
  all_goals intro h; subst h; simp [startOfPeriod]

theorem claim3_create_row_witness :
    (DB.create testEnv stateAB "gamma" 0 "days").task =
      some { id := testEnv.genId stateAB.seed, name := "gamma",
             complete := false,
             sortOrder := (DB.list testEnv stateAB (some 0) none).length + 1,
             period := "days", date := startOfPeriod testEnv 0 "days" } :=
  (claim3_create_row testEnv stateAB "gamma" 0 "days" (by decide)).1

/-- C9: saving the store to its persisted image and constructing a new store
from that image yields a store whose unfiltered `list()` output is identical
to the unfiltered `list()` output of the original store. -/
theorem claim9_round_trip (E : Env) (s : DBState) :
    DB.list E (DB.init (DB.save s).saved) none none =
      DB.list E s none none := by
  simp [DB.save, DB.init, decodeRows_exportDb, DB.list]

lemma applyOrder_nil (start : Nat) : applyOrder [] start = id :=
  funext fun _ => rfl

lemma idIndex_eq_none_of_not_mem {id : String} :
    ∀ {l : List String}, id ∉ l → idIndex id l = none := by
  intro l
  induction l with
  | nil => intro _; rfl
  | cons i is ih =>
    intro h
    have hne : ¬(i = id) := fun hi => h (by rw [← hi]; exact List.mem_cons_self i is)
    simp only [idIndex, if_neg hne,
      ih (fun hi => h (List.mem_cons_of_mem i hi)), Option.map_none']

lemma applyOrder_not_mem {t : Task} {ids : List String} (h : t.id ∉ ids)
    (start : Nat) : applyOrder ids start t = t := by
  simp [applyOrder, idIndex_eq_none_of_not_mem h]

lemma applyOrder_setOne {i : String} {pre : List String} (hni : i ∉ pre)
    (start : Nat) (t : Task) :
    applyOrder pre (start + 1)
      (if t.id = i then { t with sortOrder := start } else t) =
    applyOrder (i :: pre) start t := by
  by_cases h : t.id = i
  · rw [if_pos h]
    have hid : ({ t with sortOrder := start } : Task).id ∉ pre := by
      simpa [h] using hni
    rw [applyOrder_not_mem hid]
    simp [applyOrder, idIndex, h]
  · rw [if_neg h]
    have hne : ¬(i = t.id) := fun hi => h hi.symm
    simp only [applyOrder, idIndex, if_neg hne]
    cases hidx : idIndex t.id pre with
    | none => simp
    | some k =>
      have harith : start + 1 + k = start + (k + 1) := by omega
      simp [harith]

lemma updateOrderLoop_ok (members : List String) :
    ∀ (ids : List String) (ts : List Task) (start : Nat), ids.Nodup →
      (∀ i ∈ ids, i ∈ members) →
      DB.updateOrderLoop members ids ts start =
        (ts.map (applyOrder ids start), none) := by
  intro ids
  induction ids with
  | nil =>
    intro ts start _ _
    rw [applyOrder_nil, List.map_id]
    rfl
  | cons i rest ih =>
    intro ts start hnd hm
    have hnd' := List.nodup_cons.mp hnd
    rw [DB.updateOrderLoop, if_pos (hm i (List.mem_cons_self i rest)),
      ih _ _ hnd'.2 (fun j hj => hm j (List.mem_cons_of_mem i hj)),
      List.map_map]
    have : (applyOrder rest (start + 1)) ∘
        (fun t => if t.id = i then { t with sortOrder := start } else t) =
        applyOrder (i :: rest) start :=
      funext fun t => applyOrder_setOne hnd'.1 start t
    rw [this]

lemma updateOrderLoop_fail (members : List String) {bad : String}
    (rest : List String) (hbad : bad ∉ members) :
    ∀ (pre : List String) (ts : List Task) (start : Nat), pre.Nodup →
      (∀ i ∈ pre, i ∈ members) →
      DB.updateOrderLoop members (pre ++ bad :: rest) ts start =
        (ts.map (applyOrder pre start),
         some ("Task with id " ++ bad ++
           " does not exist for the specified day.")) := by
  intro pre
  induction pre with
  | nil =>
    intro ts start _ _
    rw [List.nil_append, DB.updateOrderLoop, if_neg hbad, applyOrder_nil,
      List.map_id]
  | cons i pre ih =>
    intro ts start hnd hm
    have hnd' := List.nodup_cons.mp hnd
    rw [List.cons_append, DB.updateOrderLoop,
      if_pos (hm i (List.mem_cons_self i pre)),
      ih _ _ hnd'.2 (fun j hj => hm j (List.mem_cons_of_mem i hj)),
      List.map_map]
    have : (applyOrder pre (start + 1)) ∘
        (fun t => if t.id = i then { t with sortOrder := start } else t) =
        applyOrder (i :: pre) start :=
      funext fun t => applyOrder_setOne hnd'.1 start t
    rw [this]

lemma updateOrderLoop_err_none (members : List String) :
    ∀ (ids : List String) (ts : List Task) (start : Nat),
      (∀ i ∈ ids, i ∈ members) →
      (DB.updateOrderLoop members ids ts start).2 = none := by
  intro ids
  induction ids with
  | nil => intro ts start _; rfl
  | cons i rest ih =>
    intro ts start h
    rw [DB.updateOrderLoop, if_pos (h i (List.mem_cons_self i rest))]
    exact ih _ _ (fun j hj => h j (List.mem_cons_of_mem i hj))

/-- C10: `updateOrder` does not require `orderedIds` to enumerate the whole
bucket: with a (duplicate-free) strict subset of the bucket's ids the call
succeeds, each listed task's sortOrder becomes its index in `orderedIds`,
and every task not listed keeps its previous sortOrder. -/
theorem claim10_updateOrder_subset (E : Env) (s : DBState) (day : Nat)
    (period : String) (orderedIds : List String)
    (hnodup : orderedIds.Nodup)
    (hmem : ∀ i ∈ orderedIds,
      i ∈ (DB.list E s (some day) (some period)).map (·.id))
    (hstrict : ∃ j ∈ (DB.list E s (some day) (some period)).map (·.id),
      j ∉ orderedIds) :
    (DB.updateOrder E s day period orderedIds).err = none
    ∧ (DB.updateOrder E s day period orderedIds).state.tasks
        = s.tasks.map (applyOrder orderedIds 0)
    ∧ (∀ t : Task, t.id ∉ orderedIds → applyOrder orderedIds 0 t = t)
    ∧ (∀ (t : Task) (k : Nat), idIndex t.id orderedIds = some k →
        applyOrder orderedIds 0 t = { t with sortOrder := k }) := by
  have hloop := updateOrderLoop_ok
    ((DB.list E s (some day) (some period)).map (·.id)) orderedIds s.tasks 0
    hnodup hmem
  refine ⟨?_, ?_, fun t ht => applyOrder_not_mem ht 0, fun t k hk => ?_⟩
  · rw [DB.updateOrder, hloop]
  · rw [DB.updateOrder, hloop]
    rfl
  · simp [applyOrder, hk]

/-- Helper for extracting fields of `updateOrder` when the loop fails. -/
lemma updateOrder_fail_eq (E : Env) (s : DBState) (day : Nat)
    (period : String) (ids : List String) (ts : List Task) (e : String)
    (h : DB.updateOrderLoop
        ((DB.list E s (some day) (some period)).map (·.id)) ids s.tasks 0
      = (ts, some e)) :
    DB.updateOrder E s day period ids
      = { state := { s with tasks := ts }, err := some e } := by
  rw [DB.updateOrder, h]

theorem claim10_updateOrder_subset_witness :
    (DB.updateOrder testEnv stateAB 0 "days" ["B"]).err = none
    ∧ (DB.updateOrder testEnv stateAB 0 "days" ["B"]).state.tasks
        = stateAB.tasks.map (applyOrder ["B"] 0) :=
  ⟨(claim10_updateOrder_subset testEnv stateAB 0 "days" ["B"] (by decide)
      (by decide) ⟨"A", by decide, by decide⟩).1,
   (claim10_updateOrder_subset testEnv stateAB 0 "days" ["B"] (by decide)
      (by decide) ⟨"A", by decide, by decide⟩).2.1⟩

/-- C1 (amended): a call `updateOrder(day, period, orderedIds)` in which the
first id not belonging to the bucket is `bad` fails with the validation
error naming `bad` and does not touch the persisted slot, but the ids listed
before `bad` have already had their sortOrder set to their index by the
per-row loop; only tasks whose id does not precede `bad` in `orderedIds`
keep their previous sortOrder. -/
theorem claim1_amended_nonatomic_reorder (E : Env) (s : DBState) (day : Nat)
    (period : String) (pre rest : List String) (bad : String)
    (hnodup : pre.Nodup)
    (hpre : ∀ i ∈ pre, i ∈ (DB.list E s (some day) (some period)).map (·.id))
    (hbad : bad ∉ (DB.list E s (some day) (some period)).map (·.id)) :
    (DB.updateOrder E s day period (pre ++ bad :: rest)).err
      = some ("Task with id " ++ bad ++
          " does not exist for the specified day.")
    ∧ (DB.updateOrder E s day period (pre ++ bad :: rest)).state.tasks
        = s.tasks.map (applyOrder pre 0)
    ∧ (DB.updateOrder E s day period (pre ++ bad :: rest)).state.saved
        = s.saved
    ∧ (∀ t : Task, t.id ∉ pre → applyOrder pre 0 t = t) := by
  have hloop := updateOrderLoop_fail
    ((DB.list E s (some day) (some period)).map (·.id)) rest hbad pre
    s.tasks 0 hnodup hpre
  refine ⟨?_, ?_, ?_, fun t ht => applyOrder_not_mem ht 0⟩
  · rw [DB.updateOrder, hloop]
  · rw [DB.updateOrder, hloop]
  · rw [DB.updateOrder, hloop]

/-- C1 is refuted as stated: in the two-task bucket of `stateAB` the call
`updateOrder(0, "days", [A, Z])` throws the validation error naming `Z`,
yet the sortOrder of task `A` has changed from 1 to 0 by the time the error
propagates. -/
theorem claim1_counterexample :
    (DB.updateOrder testEnv stateAB 0 "days" ["A", "Z"]).err
      = some "Task with id Z does not exist for the specified day."
    ∧ (DB.read stateAB "A").map (·.sortOrder) = some 1
    ∧ (DB.read (DB.updateOrder testEnv stateAB 0 "days" ["A", "Z"]).state
        "A").map (·.sortOrder) = some 0 := by
  decide

theorem claim1_amended_nonatomic_reorder_witness :
    (DB.updateOrder testEnv stateAB 0 "days" ["A", "Z"]).state.tasks
      = stateAB.tasks.map (applyOrder ["A"] 0) :=
  (claim1_amended_nonatomic_reorder testEnv stateAB 0 "days" ["A"] []
    "Z" (by decide) (by decide) (by decide)).2.1

/-- C7: for an id with no row, `read` returns the null variant and each of
`update`, `markComplete`, `markIncomplete`, `delete` throws `Not Found`
leaving the state unchanged; for an id with a row, none of them throws. -/
theorem claim7_not_found (E : Env) (s : DBState) (id name : String) :
    ((∀ t ∈ s.tasks, t.id ≠ id) →
      DB.read s id = none
      ∧ DB.update s id name = { state := s, err := some "Not Found" }
      ∧ DB.markComplete s id = { state := s, err := some "Not Found" }
      ∧ DB.markIncomplete s id = { state := s, err := some "Not Found" }
      ∧ DB.delete E s id = { state := s, err := some "Not Found" })
    ∧ ((∃ t ∈ s.tasks, t.id = id) →
      (DB.update s id name).err = none
      ∧ (DB.markComplete s id).err = none
      ∧ (DB.markIncomplete s id).err = none
      ∧ (DB.delete E s id).err = none) := by
  constructor
  · intro h
    have hread : DB.read s id = none := by
      rw [DB.read, List.find?_eq_none]
      intro t ht
      simpa using h t ht
    have hchk : DB.checkExists s id = Except.error "Not Found" := by
      rw [DB.checkExists, hread]
    exact ⟨hread, by rw [DB.update, hchk], by rw [DB.markComplete, hchk],
      by rw [DB.markIncomplete, hchk], by rw [DB.delete, hchk]⟩
  · rintro ⟨t, ht, hid⟩
    have hsome : ∃ u, DB.read s id = some u := by
      rcases hfind : s.tasks.find? (fun t => t.id == id) with _ | u
      · rw [List.find?_eq_none] at hfind
        exact absurd (by simpa using hid) (hfind t ht)
      · exact ⟨u, hfind⟩
    rcases hsome with ⟨u, hu⟩
    have hchk : DB.checkExists s id = Except.ok u := by
      rw [DB.checkExists, hu]
    refine ⟨by rw [DB.update, hchk], by rw [DB.markComplete, hchk],
      by rw [DB.markIncomplete, hchk], ?_⟩
    rw [DB.delete, hchk]
    have herr : (DB.updateOrder E
        { s with tasks := s.tasks.filter fun t => !(t.id == id) }
        u.date u.period
        (((DB.list E { s with tasks := s.tasks.filter fun t => !(t.id == id) }
            (some u.date) (some u.period)).filter
              fun t => !(u.id == t.id)).map (·.id))).err = none := by
      rw [DB.updateOrder]
      have hsub : ∀ i ∈ (((DB.list E
          { s with tasks := s.tasks.filter fun t => !(t.id == id) }
          (some u.date) (some u.period)).filter
            fun t => !(u.id == t.id)).map (·.id)),
          i ∈ (DB.list E { s with tasks := s.tasks.filter fun t => !(t.id == id) }
            (some u.date) (some u.period)).map (·.id) := by
        intro i hi
        rcases List.mem_map.mp hi with ⟨v, hv, hvi⟩
        exact List.mem_map.mpr ⟨v, List.mem_of_mem_filter hv, hvi⟩
      have := updateOrderLoop_err_none
        ((DB.list E { s with tasks := s.tasks.filter fun t => !(t.id == id) }
          (some u.date) (some u.period)).map (·.id)) _
        (s.tasks.filter fun t => !(t.id == id)) 0 hsub
      rcases hloop : DB.updateOrderLoop _ _ _ _ with ⟨ts, e⟩
      rw [hloop] at this
      simp only at this
      subst this
      rfl
    simp only [herr]

theorem claim7_not_found_witness :
    DB.read stateAB "C" = none
    ∧ (DB.delete testEnv stateAB "A").err = none :=
  ⟨((claim7_not_found testEnv stateAB "C" "x").1 (by decide)).1,
   ((claim7_not_found testEnv stateAB "A" "x").2
      ⟨{ id := "A", name := "alpha", complete := false, sortOrder := 1,
         period := "days", date := 0 }, by decide, rfl⟩).2.2.2⟩

/-- C4: every mutating operation, on success, overwrites the persisted slot
with the full serialized image of the database before returning; `update`
(rename) alone mutates the live table while leaving the slot unchanged. -/
theorem claim4_persistence (E : Env) (s : DBState) (name : String)
    (day : Nat) (period : String) (id : String) (ids : List String) :
    ((DB.create E s name day period).state.saved
        = some (DB.exportDb (DB.create E s name day period).state.tasks))
    ∧ ((DB.markComplete s id).err = none →
        (DB.markComplete s id).state.saved
          = some (DB.exportDb (DB.markComplete s id).state.tasks))
    ∧ ((DB.markIncomplete s id).err = none →
        (DB.markIncomplete s id).state.saved
          = some (DB.exportDb (DB.markIncomplete s id).state.tasks))
    ∧ ((DB.delete E s id).err = none →
        (DB.delete E s id).state.saved
          = some (DB.exportDb (DB.delete E s id).state.tasks))
    ∧ ((DB.copyIncompletes E s day period).state.saved
        = some (DB.exportDb (DB.copyIncompletes E s day period).state.tasks))
    ∧ ((DB.clearPeriod E s day period).state.saved
        = some (DB.exportDb (DB.clearPeriod E s day period).state.tasks))
    ∧ ((DB.updateOrder E s day period ids).err = none →
        (DB.updateOrder E s day period ids).state.saved
          = some (DB.exportDb (DB.updateOrder E s day period ids).state.tasks))
    ∧ ((DB.update s id name).err = none →
        (DB.update s id name).state.saved = s.saved
        ∧ (DB.update s id name).state.tasks
            = s.tasks.map fun t =>
                if t.id = id then { t with name := name } else t) := by
  refine ⟨rfl, ?_, ?_, ?_, rfl, rfl, ?_, ?_⟩
  · rcases hchk : DB.checkExists s id with e | u
    · intro h
      rw [DB.markComplete, hchk] at h
      exact absurd h (by simp)
    · intro _
      rw [DB.markComplete, hchk]
      rfl
  · rcases hchk : DB.checkExists s id with e | u
    · intro h
      rw [DB.markIncomplete, hchk] at h
      exact absurd h (by simp)
    · intro _
      rw [DB.markIncomplete, hchk]
      rfl
  · rcases hchk : DB.checkExists s id with e | u
    · intro h
      rw [DB.delete, hchk] at h
      exact absurd h (by simp)
    · intro h
      rw [DB.delete, hchk] at h ⊢
      rcases herr : (DB.updateOrder E
          { s with tasks := s.tasks.filter fun t => !(t.id == id) }
          u.date u.period
          (((DB.list E
              { s with tasks := s.tasks.filter fun t => !(t.id == id) }
              (some u.date) (some u.period)).filter
                fun t => !(u.id == t.id)).map (·.id))).err with _ | e
      · simp only [herr]
        rfl
      · simp only [herr] at h
        exact absurd h (by simp)
  · rcases hloop : DB.updateOrderLoop
        ((DB.list E s (some day) (some period)).map (·.id)) ids s.tasks 0
        with ⟨ts, e⟩
    rcases e with _ | e
    · intro _
      rw [DB.updateOrder, hloop]
      rfl
    · intro h
      rw [DB.updateOrder, hloop] at h
      exact absurd h (by simp)
  · rcases hchk : DB.checkExists s id with e | u
    · intro h
      rw [DB.update, hchk] at h
      exact absurd h (by simp)
    · intro _
      rw [DB.update, hchk]
      exact ⟨rfl, rfl⟩

theorem claim4_persistence_witness :
    (DB.markComplete stateAB "A").state.saved
      = some (DB.exportDb (DB.markComplete stateAB "A").state.tasks)
    ∧ (DB.update stateAB "A" "renamed").state.saved = stateAB.saved :=
  ⟨(claim4_persistence testEnv stateAB "n" 0 "days" "A" ["A"]).2.1 (by decide),
   ((claim4_persistence testEnv stateAB "n" 0 "days" "A" ["A"]).2.2.2.2.2.2.2
      (by decide)).1⟩

lemma create_appends (E : Env) (s : DBState) (name : String) (day : Nat)
    (period : String) :
    (DB.create E s name day period).state.tasks =
      s.tasks ++
        [{ id := E.genId s.seed, name := name, complete := false,
           sortOrder := (DB.list E s (some day) none).length + 1,
           period := period, date := startOfPeriod E day period }] := rfl

lemma copy_fold (E : Env) (day : Nat) (period : String) :
    ∀ (incs : List Task) (s : DBState),
      ∃ rows : List Task,
        (incs.foldl (fun st t => (DB.create E st t.name day period).state)
            s).tasks = s.tasks ++ rows
        ∧ rows.map (·.name) = incs.map (·.name)
        ∧ ∀ r ∈ rows, r.period = period ∧ r.date = startOfPeriod E day period
            ∧ r.complete = false := by
  intro incs
  induction incs with
  | nil => intro s; exact ⟨[], by simp, rfl, by simp⟩
  | cons t incs ih =>
    intro s
    rcases ih (DB.create E s t.name day period).state with ⟨rows, h1, h2, h3⟩
    refine ⟨{ id := E.genId s.seed, name := t.name, complete := false,
              sortOrder := (DB.list E s (some day) none).length + 1,
              period := period,
              date := startOfPeriod E day period } :: rows,
      ?_, ?_, ?_⟩
    · rw [List.foldl_cons, h1, create_appends]
      simp
    · simp [h2]
    · intro r hr
      rcases List.mem_cons.mp hr with h | h
      · subst h; exact ⟨rfl, rfl, rfl⟩
      · exact h3 r h

/-- C8: `copyIncompletes(day, period)` anchors the previous bucket one day
back for `days`, one week back for `weeks`, one month back for `months`,
and one year back in the default branch (covering `year` and anything
else); it then appends to the table exactly one freshly created task per
incomplete task of that previous bucket, carrying its name into the current
`(day, period)` bucket, and none for the complete ones. -/
theorem claim8_copy_incompletes (E : Env) (s : DBState) (day : Nat)
    (period : String) :
    ∃ rows : List Task,
      (DB.copyIncompletes E s day period).state.tasks = s.tasks ++ rows
      ∧ rows.map (·.name) =
          ((DB.list E s
            (some (if period = "days" then E.startOfDay (E.subDays day 1)
              else if period = "weeks" then E.startOfWeek (E.subWeeks day 1)
              else if period = "months" then E.startOfMonth (E.subMonths day 1)
              else E.startOfYear (E.subYears day 1)))
            (some period)).filter (fun t => !t.complete)).map (·.name)
      ∧ ∀ r ∈ rows, r.period = period ∧ r.date = startOfPeriod E day period
          ∧ r.complete = false := by
  have hbranch :
      (if period = "days" then
        DB.list E s (some (E.startOfDay (E.subDays day 1))) (some period)
      else if period = "weeks" then
        DB.list E s (some (E.startOfWeek (E.subWeeks day 1))) (some period)
      else if period = "months" then
        DB.list E s (some (E.startOfMonth (E.subMonths day 1))) (some period)
      else
        DB.list E s (some (E.startOfYear (E.subYears day 1))) (some period))
      = DB.list E s
          (some (if period = "days" then E.startOfDay (E.subDays day 1)
            else if period = "weeks" then E.startOfWeek (E.subWeeks day 1)
            else if period = "months" then E.startOfMonth (E.subMonths day 1)
            else E.startOfYear (E.subYears day 1)))
          (some period) := by
    split_ifs <;> rfl
  rcases copy_fold E day period
      ((DB.list E s
        (some (if period = "days" then E.startOfDay (E.subDays day 1)
          else if period = "weeks" then E.startOfWeek (E.subWeeks day 1)
          else if period = "months" then E.startOfMonth (E.subMonths day 1)
          else E.startOfYear (E.subYears day 1)))
        (some period)).filter (fun t => !t.complete)) s
    with ⟨rows, h1, h2, h3⟩
  refine ⟨rows, ?_, h2, h3⟩
  simp only [DB.copyIncompletes, hbranch]
  exact h1

lemma sorted_map_le {l : List Task} (h : l.Sorted taskLE) :
    (l.map (·.sortOrder)).Sorted (· ≤ ·) :=
  List.pairwise_map.mpr h

lemma sorted_lt_of_le_nodup {l : List Task} (hs : l.Sorted taskLE)
    (hnd : (l.map (·.sortOrder)).Nodup) : l.Sorted taskLT := by
  have hne : l.Pairwise (fun a b : Task => a.sortOrder ≠ b.sortOrder) :=
    List.pairwise_map.mp hnd
  exact (hs.and hne).imp fun h => Nat.lt_of_le_of_ne h.1 h.2

lemma sortTasks_filter {l : List Task} (p : Task → Bool)
    (hnd : ((l.filter p).map (·.sortOrder)).Nodup) :
    (sortTasks l).filter p = sortTasks (l.filter p) := by
  have hperm : List.Perm ((sortTasks l).filter p) (sortTasks (l.filter p)) :=
    ((sortTasks_perm l).filter p).trans (sortTasks_perm (l.filter p)).symm
  have h2 : List.Perm (((sortTasks l).filter p).map (·.sortOrder))
      ((l.filter p).map (·.sortOrder)) :=
    ((sortTasks_perm l).filter p).map _
  have h3 : List.Perm ((sortTasks (l.filter p)).map (·.sortOrder))
      ((l.filter p).map (·.sortOrder)) :=
    (sortTasks_perm (l.filter p)).map _
  exact List.eq_of_perm_of_sorted hperm
    (sorted_lt_of_le_nodup ((sortTasks_sorted l).filter p)
      (h2.nodup_iff.mpr hnd))
    (sorted_lt_of_le_nodup (sortTasks_sorted (l.filter p))
      (h3.nodup_iff.mpr hnd))

lemma filter_map_comm {l : List Task} {f : Task → Task} (p : Task → Bool)
    (hp : ∀ t, p (f t) = p t) :
    (l.map f).filter p = (l.filter p).map f := by
  rw [List.filter_map]
  congr 1
  exact List.filter_congr fun t _ => hp t

lemma applyOrder_proj (ids : List String) (start : Nat) (t : Task) :
    (applyOrder ids start t).id = t.id
    ∧ (applyOrder ids start t).date = t.date
    ∧ (applyOrder ids start t).period = t.period := by
  unfold applyOrder
  cases idIndex t.id ids <;> exact ⟨rfl, rfl, rfl⟩

lemma bucketPred_applyOrder (E : Env) (d : Nat) (p : String)
    (ids : List String) (start : Nat) (t : Task) :
    bucketPred E d p (applyOrder ids start t) = bucketPred E d p t := by
  unfold bucketPred inWindow
  rw [(applyOrder_proj ids start t).2.1, (applyOrder_proj ids start t).2.2]

lemma idIndex_get :
    ∀ {ids : List String}, ids.Nodup → ∀ (k : Nat) (hk : k < ids.length),
      idIndex (ids.get ⟨k, hk⟩) ids = some k := by
  intro ids
  induction ids with
  | nil => intro _ k hk; exact absurd hk (by simp)
  | cons i is ih =>
    intro hnd k hk
    have hnd' := List.nodup_cons.mp hnd
    cases k with
    | zero => simp [idIndex]
    | succ k =>
      have hk' : k < is.length := by simpa using hk
      have hmem : is.get ⟨k, hk'⟩ ∈ is := List.get_mem is k hk'
      have hne : ¬(i = is.get ⟨k, hk'⟩) := fun h => hnd'.1 (h ▸ hmem)
      have hget : (i :: is).get ⟨k + 1, hk⟩ = is.get ⟨k, hk'⟩ := rfl
      rw [hget, idIndex, if_neg hne, ih hnd'.2 k hk']
      rfl

lemma applyOrder_self_orders {L : List Task} (hnd : (L.map (·.id)).Nodup) :
    (L.map (applyOrder (L.map (·.id)) 0)).map (·.sortOrder)
      = List.range L.length := by
  apply List.ext_getElem
  · simp
  · intro k h1 h2
    have hk : k < L.length := by simpa using h1
    have hidx : idIndex (L.get ⟨k, hk⟩).id (L.map (·.id)) = some k := by
      have h := idIndex_get hnd k (by simpa using hk)
      rwa [List.get_map] at h
    simp only [List.getElem_map, List.getElem_range]
    have hidx2 : idIndex (L[k]).id (L.map (·.id)) = some k := hidx
    simp [applyOrder, hidx2]

lemma filter_erase_of_nodup {t0 : Task} :
    ∀ {O : List Task}, (O.map (·.id)).Nodup → t0 ∈ O →
      ∃ o1 o2 : List Task, O = o1 ++ t0 :: o2
        ∧ O.filter (fun t => !(t.id == t0.id)) = o1 ++ o2 := by
  intro O
  induction O with
  | nil => intro _ h; exact absurd h (by simp)
  | cons u O ih =>
    intro hnd hm
    have hnd' : u.id ∉ O.map (·.id) ∧ (O.map (·.id)).Nodup := by
      have := List.nodup_cons.mp (show ((u :: O).map (·.id)).Nodup from hnd)
      simpa using this
    rcases List.mem_cons.mp hm with h | h
    · refine ⟨[], O, by simp [h], ?_⟩
      rw [List.filter_cons,
        if_neg (by simp [← h] : ¬((!(u.id == t0.id)) = true))]
      rw [List.nil_append]
      apply List.filter_eq_self.mpr
      intro a ha
      have hne2 : a.id ≠ t0.id := by
        rw [h]
        intro he
        exact hnd'.1 (he ▸ List.mem_map_of_mem (·.id) ha)
      simpa using hne2
    · have hne : u.id ≠ t0.id := by
        intro he
        exact hnd'.1 (he ▸ List.mem_map_of_mem (·.id) h)
      rcases ih hnd'.2 h with ⟨o1, o2, ho, hf⟩
      refine ⟨u :: o1, o2, by simp [ho], ?_⟩
      rw [List.filter_cons,
        if_pos (by simpa using hne : (!(u.id == t0.id)) = true), hf]
      rfl

lemma delete_ok (E : Env) (s : DBState) (t0 : Task)
    (hread : DB.read s t0.id = some t0)
    (hndL : ((DB.list E
        { s with tasks := s.tasks.filter fun t => !(t.id == t0.id) }
        (some t0.date) (some t0.period)).map (·.id)).Nodup) :
    DB.delete E s t0.id =
      { state := DB.save (DB.save { s with
          tasks := (s.tasks.filter fun t => !(t.id == t0.id)).map
            (applyOrder
              (((DB.list E
                  { s with tasks := s.tasks.filter fun t => !(t.id == t0.id) }
                  (some t0.date) (some t0.period)).filter
                    fun t => !(t0.id == t.id)).map (·.id)) 0) }),
        err := none, task := none } := by
  have hchk : DB.checkExists s t0.id = Except.ok t0 := by
    rw [DB.checkExists, hread]
  have hpnd : ((((DB.list E
      { s with tasks := s.tasks.filter fun t => !(t.id == t0.id) }
      (some t0.date) (some t0.period)).filter
        fun t => !(t0.id == t.id)).map (·.id))).Nodup :=
    List.Nodup.sublist ((List.filter_sublist _).map _) hndL
  have hsub : ∀ i ∈ (((DB.list E
      { s with tasks := s.tasks.filter fun t => !(t.id == t0.id) }
      (some t0.date) (some t0.period)).filter
        fun t => !(t0.id == t.id)).map (·.id)),
      i ∈ (DB.list E
        { s with tasks := s.tasks.filter fun t => !(t.id == t0.id) }
        (some t0.date) (some t0.period)).map (·.id) := by
    intro i hi
    rcases List.mem_map.mp hi with ⟨v, hv, hvi⟩
    exact List.mem_map.mpr ⟨v, List.mem_of_mem_filter hv, hvi⟩
  have hUO : DB.updateOrder E
      { s with tasks := s.tasks.filter fun t => !(t.id == t0.id) }
      t0.date t0.period
      (((DB.list E
          { s with tasks := s.tasks.filter fun t => !(t.id == t0.id) }
          (some t0.date) (some t0.period)).filter
            fun t => !(t0.id == t.id)).map (·.id)) =
      { state := DB.save { s with
          tasks := (s.tasks.filter fun t => !(t.id == t0.id)).map
            (applyOrder
              (((DB.list E
                  { s with tasks := s.tasks.filter fun t => !(t.id == t0.id) }
                  (some t0.date) (some t0.period)).filter
                    fun t => !(t0.id == t.id)).map (·.id)) 0) },
        err := none, task := none } := by
    simp only [DB.updateOrder]
    rw [updateOrderLoop_ok _ _ _ _ hpnd hsub]
  rw [DB.delete, hchk]
  simp only [hUO]

lemma reorder_sorted (E : Env) (d : Nat) (p : String) (ts : List Task)
    (hnd : ((sortTasks (ts.filter (bucketPred E d p))).map (·.id)).Nodup) :
    sortTasks ((ts.map (applyOrder
        ((sortTasks (ts.filter (bucketPred E d p))).map (·.id)) 0)).filter
      (bucketPred E d p))
    = (sortTasks (ts.filter (bucketPred E d p))).map
        (applyOrder ((sortTasks (ts.filter (bucketPred E d p))).map (·.id))
          0) := by
  set L := sortTasks (ts.filter (bucketPred E d p)) with hLdef
  set f := applyOrder (L.map (·.id)) 0 with hfdef
  have h1 : (ts.map f).filter (bucketPred E d p)
      = (ts.filter (bucketPred E d p)).map f :=
    filter_map_comm _ fun t => by
      rw [hfdef]; exact bucketPred_applyOrder E d p _ 0 t
  have hXso : (L.map f).map (·.sortOrder) = List.range L.length := by
    rw [hfdef]; exact applyOrder_self_orders hnd
  have hXlt : (L.map f).Sorted taskLT := by
    have hp : ((L.map f).map (·.sortOrder)).Pairwise (· < ·) := by
      rw [hXso]; exact List.pairwise_lt_range _
    have h2 : (L.map f).Pairwise
        (fun a b : Task => a.sortOrder < b.sortOrder) :=
      List.pairwise_map.mp hp
    exact h2
  have hperm : List.Perm (sortTasks ((ts.map f).filter (bucketPred E d p)))
      (L.map f) := by
    rw [h1]
    exact (sortTasks_perm _).trans ((sortTasks_perm _).symm.map f)
  have hB2le : (sortTasks ((ts.map f).filter
      (bucketPred E d p))).Sorted taskLE := sortTasks_sorted _
  have hB2nd : ((sortTasks ((ts.map f).filter (bucketPred E d p))).map
      (·.sortOrder)).Nodup := by
    refine ((hperm.map (·.sortOrder)).nodup_iff).mpr ?_
    rw [hXso]
    exact List.nodup_range _
  exact List.eq_of_perm_of_sorted hperm
    (sorted_lt_of_le_nodup hB2le hB2nd) hXlt

/-- C5: deleting a task from a bucket whose n sortOrders are exactly
{0..n-1} succeeds, and the surviving tasks of that bucket end up with
sortOrders exactly {0..n-2} (read off the sorted listing as the literal
list [0, 1, ..., n-2]) while keeping their previous relative order (the
sorted listing's id sequence is the old one with the deleted id removed). -/
theorem claim5_delete_dense (E : Env) (s : DBState) (id : String) (t0 : Task)
    (hread : DB.read s id = some t0)
    (hnd : (s.tasks.map (·.id)).Nodup)
    (hmem : t0 ∈ DB.list E s (some t0.date) (some t0.period))
    (hdense : List.Perm
      ((DB.list E s (some t0.date) (some t0.period)).map (·.sortOrder))
      (List.range (DB.list E s (some t0.date) (some t0.period)).length)) :
    (DB.delete E s id).err = none
    ∧ ((DB.list E (DB.delete E s id).state (some t0.date)
          (some t0.period)).map (·.sortOrder))
        = List.range
            ((DB.list E s (some t0.date) (some t0.period)).length - 1)
    ∧ ((DB.list E (DB.delete E s id).state (some t0.date)
          (some t0.period)).map (·.id))
        = ((DB.list E s (some t0.date) (some t0.period)).filter
            (fun t => !(t.id == id))).map (·.id) := by
  have hid : t0.id = id := by
    have h := List.find?_some hread
    simpa using h
  subst hid
  have hOperm : List.Perm (DB.list E s (some t0.date) (some t0.period))
      (s.tasks.filter (bucketPred E t0.date t0.period)) := sortTasks_perm _
  have hbp_nd_id : ((s.tasks.filter
      (bucketPred E t0.date t0.period)).map (·.id)).Nodup :=
    List.Nodup.sublist ((List.filter_sublist s.tasks).map (·.id)) hnd
  have hOid : ((DB.list E s (some t0.date) (some t0.period)).map
      (·.id)).Nodup :=
    ((hOperm.map (·.id)).nodup_iff).mpr hbp_nd_id
  have hOso : ((DB.list E s (some t0.date) (some t0.period)).map
      (·.sortOrder)).Nodup :=
    hdense.nodup_iff.mpr (List.nodup_range _)
  rcases filter_erase_of_nodup hOid hmem with ⟨o1, o2, hOsplit, hOfilter⟩
  have hlen : ((DB.list E s (some t0.date) (some t0.period)).filter
      (fun t => !(t.id == t0.id))).length
      = (DB.list E s (some t0.date) (some t0.period)).length - 1 := by
    rw [hOfilter, hOsplit]
    simp only [List.length_append, List.length_cons]
    omega
  have hfe : (s.tasks.filter fun t => !(t.id == t0.id)).filter
        (bucketPred E t0.date t0.period)
      = (s.tasks.filter (bucketPred E t0.date t0.period)).filter
          fun t => !(t.id == t0.id) := by
    rw [List.filter_filter, List.filter_filter]
    exact List.filter_congr fun a _ => Bool.and_comm _ _
  have hfil_nd : (((s.tasks.filter (bucketPred E t0.date t0.period)).filter
      (fun t => !(t.id == t0.id))).map (·.sortOrder)).Nodup := by
    have h1 : ((s.tasks.filter
        (bucketPred E t0.date t0.period)).map (·.sortOrder)).Nodup :=
      ((hOperm.map (·.sortOrder)).nodup_iff).mp hOso
    exact List.Nodup.sublist ((List.filter_sublist _).map _) h1
  have hL : DB.list E
      { s with tasks := s.tasks.filter fun t => !(t.id == t0.id) }
      (some t0.date) (some t0.period)
      = (DB.list E s (some t0.date) (some t0.period)).filter
          (fun t => !(t.id == t0.id)) := by
    show sortTasks ((s.tasks.filter fun t => !(t.id == t0.id)).filter
        (bucketPred E t0.date t0.period)) = _
    rw [hfe]
    exact (sortTasks_filter _ hfil_nd).symm
  have hLid : ((DB.list E
      { s with tasks := s.tasks.filter fun t => !(t.id == t0.id) }
      (some t0.date) (some t0.period)).map (·.id)).Nodup := by
    rw [hL]
    exact List.Nodup.sublist ((List.filter_sublist _).map _) hOid
  have hdel := delete_ok E s t0 hread hLid
  have hGL : (DB.list E
      { s with tasks := s.tasks.filter fun t => !(t.id == t0.id) }
      (some t0.date) (some t0.period)).filter (fun t => !(t0.id == t.id))
      = DB.list E
          { s with tasks := s.tasks.filter fun t => !(t.id == t0.id) }
          (some t0.date) (some t0.period) := by
    apply List.filter_eq_self.mpr
    intro a ha
    rw [hL] at ha
    have h2 := List.of_mem_filter ha
    simp only [Bool.not_eq_eq_eq_not, Bool.not_true, beq_eq_false_iff_ne] at h2 ⊢
    exact fun he => h2 he.symm
  rw [hGL] at hdel
  have hstate : (DB.delete E s t0.id).state.tasks
      = (s.tasks.filter fun t => !(t.id == t0.id)).map
          (applyOrder ((DB.list E
            { s with tasks := s.tasks.filter fun t => !(t.id == t0.id) }
            (some t0.date) (some t0.period)).map (·.id)) 0) := by
    rw [hdel]
    rfl
  have hB2 : DB.list E (DB.delete E s t0.id).state (some t0.date)
        (some t0.period)
      = (DB.list E
          { s with tasks := s.tasks.filter fun t => !(t.id == t0.id) }
          (some t0.date) (some t0.period)).map
        (applyOrder ((DB.list E
            { s with tasks := s.tasks.filter fun t => !(t.id == t0.id) }
            (some t0.date) (some t0.period)).map (·.id)) 0) := by
    show sortTasks (((DB.delete E s t0.id).state.tasks).filter
        (bucketPred E t0.date t0.period)) = _
    rw [hstate]
    exact reorder_sorted E t0.date t0.period
      (s.tasks.filter fun t => !(t.id == t0.id)) hLid
  refine ⟨by rw [hdel], ?_, ?_⟩
  · rw [hB2, applyOrder_self_orders hLid]
    congr 1
    rw [hL]
    exact hlen
  · rw [hB2, List.map_map]
    have hids : (DB.list E
        { s with tasks := s.tasks.filter fun t => !(t.id == t0.id) }
        (some t0.date) (some t0.period)).map
          ((·.id) ∘ (applyOrder ((DB.list E
            { s with tasks := s.tasks.filter fun t => !(t.id == t0.id) }
            (some t0.date) (some t0.period)).map (·.id)) 0))
        = (DB.list E
            { s with tasks := s.tasks.filter fun t => !(t.id == t0.id) }
            (some t0.date) (some t0.period)).map (·.id) :=
      List.map_congr_left fun t _ => (applyOrder_proj _ 0 t).1
    rw [hids, hL]

theorem claim5_delete_dense_witness :
    (DB.delete testEnv stateCD "C").err = none
    ∧ ((DB.list testEnv (DB.delete testEnv stateCD "C").state (some 0)
          (some "days")).map (·.sortOrder))
        = List.range
            ((DB.list testEnv stateCD (some 0) (some "days")).length - 1) := by
  have h := claim5_delete_dense testEnv stateCD "C"
    { id := "C", name := "gamma", complete := false, sortOrder := 0,
      period := "days", date := 0 }
    (by decide) (by decide) (by decide) (by decide)
  exact ⟨h.1, h.2.1⟩

theorem claim8_copy_incompletes_witness :
    (DB.copyIncompletes testEnv stateAB 10 "days").state.tasks.map (·.name)
      = ["alpha", "beta", "alpha"] := by
  rcases claim8_copy_incompletes testEnv stateAB 10 "days"
    with ⟨rows, h1, h2, h3⟩
  rw [h1, List.map_append, h2]
  decide

lemma sortTasks_map {l : List Task} {f : Task → Task}
    (hso : ∀ t, (f t).sortOrder = t.sortOrder) :
    sortTasks (l.map f) = (sortTasks l).map f :=
  (List.map_insertionSort taskLE taskLE f l
    (fun a _ b _ => by
      show a.sortOrder ≤ b.sortOrder ↔ (f a).sortOrder ≤ (f b).sortOrder
      rw [hso, hso])).symm

lemma listing_map_invariant (E : Env) (d : Nat) (p : String) (s : DBState)
    (f : Task → Task)
    (hso : ∀ t, (f t).sortOrder = t.sortOrder)
    (hbp : ∀ t, bucketPred E d p (f t) = bucketPred E d p t) :
    DB.list E { s with tasks := s.tasks.map f } (some d) (some p)
      = (DB.list E s (some d) (some p)).map f := by
  show sortTasks ((s.tasks.map f).filter (bucketPred E d p)) = _
  rw [filter_map_comm _ hbp, sortTasks_map hso]
  rfl

lemma op_listing_sortOrders (E : Env) (d : Nat) (p : String) (s : DBState)
    (g : Task → Task)
    (hso : ∀ t, (g t).sortOrder = t.sortOrder)
    (hdate : ∀ t, (g t).date = t.date)
    (hper : ∀ t, (g t).period = t.period) :
    (DB.list E { s with tasks := s.tasks.map g } (some d) (some p)).map
        (·.sortOrder)
      = (DB.list E s (some d) (some p)).map (·.sortOrder) := by
  have hbp : ∀ t, bucketPred E d p (g t) = bucketPred E d p t := by
    intro t
    unfold bucketPred inWindow
    rw [hdate, hper]
  rw [listing_map_invariant E d p s g hso hbp, List.map_map]
  exact List.map_congr_left fun t _ => hso t

lemma clearPeriod_target (E : Env) (s : DBState) (day : Nat) (p : String) :
    DB.list E (DB.clearPeriod E s day p).state (some day) (some p) = [] := by
  show sortTasks ((s.tasks.filter fun t => !(bucketPred E day p t)).filter
    (bucketPred E day p)) = []
  rw [List.filter_filter]
  have hnil : s.tasks.filter
      (fun a => bucketPred E day p a && !(bucketPred E day p a)) = [] := by
    apply List.filter_eq_nil_iff.mpr
    intro a _
    cases bucketPred E day p a <;> simp
  rw [hnil]
  rfl

lemma clearPeriod_frame (E : Env) (s : DBState) (day : Nat) (p : String)
    (d' : Nat) (p' : String)
    (h : ∀ t ∈ s.tasks, bucketPred E d' p' t = true →
      bucketPred E day p t = false) :
    DB.list E (DB.clearPeriod E s day p).state (some d') (some p')
      = DB.list E s (some d') (some p') := by
  show sortTasks ((s.tasks.filter fun t => !(bucketPred E day p t)).filter
      (bucketPred E d' p'))
    = sortTasks (s.tasks.filter (bucketPred E d' p'))
  rw [List.filter_filter]
  congr 1
  apply List.filter_congr
  intro a ha
  cases hb : bucketPred E d' p' a
  · simp
  · simp [h a ha hb]

lemma idIndex_isSome_of_mem {id : String} :
    ∀ {ids : List String}, id ∈ ids → ∃ k, idIndex id ids = some k := by
  intro ids
  induction ids with
  | nil => intro h; exact absurd h (by simp)
  | cons i is ih =>
    intro h
    by_cases hi : i = id
    · exact ⟨0, by simp [idIndex, hi]⟩
    · have h1 : id ∈ is := by
        rcases List.mem_cons.mp h with h2 | h2
        · exact absurd h2.symm hi
        · exact h2
      rcases ih h1 with ⟨k, hk⟩
      exact ⟨k + 1, by simp [idIndex, hi, hk]⟩

lemma selfIndex_map {ids : List String} (hnd : ids.Nodup) :
    ids.map (fun i => (idIndex i ids).getD 0) = List.range ids.length := by
  apply List.ext_getElem
  · simp
  · intro k h1 h2
    simp only [List.getElem_map, List.getElem_range]
    have hk : k < ids.length := by simpa using h1
    have hget : ids[k] = ids.get ⟨k, hk⟩ := rfl
    rw [hget, idIndex_get hnd k hk]
    rfl

lemma updateOrder_full_dense (E : Env) (s : DBState) (day : Nat) (p : String)
    (orderedIds : List String)
    (hnd : (s.tasks.map (·.id)).Nodup)
    (hperm : List.Perm orderedIds
      ((DB.list E s (some day) (some p)).map (·.id))) :
    (DB.updateOrder E s day p orderedIds).err = none
    ∧ ((DB.list E (DB.updateOrder E s day p orderedIds).state (some day)
          (some p)).map (·.sortOrder))
        = List.range (DB.list E s (some day) (some p)).length := by
  have hOperm : List.Perm (DB.list E s (some day) (some p))
      (s.tasks.filter (bucketPred E day p)) := sortTasks_perm _
  have hLid : ((DB.list E s (some day) (some p)).map (·.id)).Nodup :=
    ((hOperm.map (·.id)).nodup_iff).mpr
      (List.Nodup.sublist ((List.filter_sublist _).map _) hnd)
  have hidnd : orderedIds.Nodup := hperm.nodup_iff.mpr hLid
  have hsub : ∀ i ∈ orderedIds,
      i ∈ (DB.list E s (some day) (some p)).map (·.id) :=
    fun _ hi => hperm.subset hi
  have hloop := updateOrderLoop_ok
    ((DB.list E s (some day) (some p)).map (·.id)) orderedIds s.tasks 0
    hidnd hsub
  constructor
  · rw [DB.updateOrder, hloop]
  · have hstate : (DB.updateOrder E s day p orderedIds).state.tasks
        = s.tasks.map (applyOrder orderedIds 0) := by
      rw [DB.updateOrder, hloop]
      rfl
    have hB2 : DB.list E (DB.updateOrder E s day p orderedIds).state
          (some day) (some p)
        = sortTasks ((s.tasks.filter (bucketPred E day p)).map
            (applyOrder orderedIds 0)) := by
      show sortTasks
        (((DB.updateOrder E s day p orderedIds).state.tasks).filter
          (bucketPred E day p)) = _
      rw [hstate,
        filter_map_comm _ (fun t => bucketPred_applyOrder E day p _ 0 t)]
    rw [hB2]
    have hpermB : List.Perm
        ((sortTasks ((s.tasks.filter (bucketPred E day p)).map
            (applyOrder orderedIds 0))).map (·.sortOrder))
        (((DB.list E s (some day) (some p)).map
            (applyOrder orderedIds 0)).map (·.sortOrder)) :=
      List.Perm.map _
        ((sortTasks_perm _).trans (hOperm.symm.map (applyOrder orderedIds 0)))
    have hvals : ((DB.list E s (some day) (some p)).map
          (applyOrder orderedIds 0)).map (·.sortOrder)
        = ((DB.list E s (some day) (some p)).map (·.id)).map
            (fun i => (idIndex i orderedIds).getD 0) := by
      rw [List.map_map, List.map_map]
      apply List.map_congr_left
      intro t ht
      have hmem : t.id ∈ orderedIds :=
        (hperm.mem_iff).mpr (List.mem_map_of_mem (·.id) ht)
      rcases idIndex_isSome_of_mem hmem with ⟨k, hk⟩
      show (applyOrder orderedIds 0 t).sortOrder
        = (idIndex t.id orderedIds).getD 0
      simp [applyOrder, hk]
    have hrange : orderedIds.map (fun i => (idIndex i orderedIds).getD 0)
        = List.range orderedIds.length := selfIndex_map hidnd
    have hlen2 : orderedIds.length
        = (DB.list E s (some day) (some p)).length := by
      have h := hperm.length_eq
      simpa using h
    have hpermRange : List.Perm
        ((sortTasks ((s.tasks.filter (bucketPred E day p)).map
            (applyOrder orderedIds 0))).map (·.sortOrder))
        (List.range (DB.list E s (some day) (some p)).length) := by
      refine hpermB.trans ?_
      rw [hvals]
      refine ((hperm.map (fun i => (idIndex i orderedIds).getD 0)).symm).trans
        ?_
      rw [hrange, hlen2]
    exact List.eq_of_perm_of_sorted hpermRange
      (sorted_map_le (sortTasks_sorted _)) (List.sorted_le_range _)

lemma update_listing (E : Env) (s : DBState) (id nm : String) (d : Nat)
    (p : String) :
    (DB.list E (DB.update s id nm).state (some d) (some p)).map (·.sortOrder)
      = (DB.list E s (some d) (some p)).map (·.sortOrder) := by
  rcases hchk : DB.checkExists s id with e | u
  · rw [DB.update, hchk]
  · rw [DB.update, hchk]
    exact op_listing_sortOrders E d p s _
      (fun t => by by_cases h : t.id = id <;> simp [h])
      (fun t => by by_cases h : t.id = id <;> simp [h])
      (fun t => by by_cases h : t.id = id <;> simp [h])

lemma markComplete_listing (E : Env) (s : DBState) (id : String) (d : Nat)
    (p : String) :
    (DB.list E (DB.markComplete s id).state (some d) (some p)).map
        (·.sortOrder)
      = (DB.list E s (some d) (some p)).map (·.sortOrder) := by
  rcases hchk : DB.checkExists s id with e | u
  · rw [DB.markComplete, hchk]
  · rw [DB.markComplete, hchk]
    exact op_listing_sortOrders E d p s _
      (fun t => by by_cases h : t.id = id <;> simp [h])
      (fun t => by by_cases h : t.id = id <;> simp [h])
      (fun t => by by_cases h : t.id = id <;> simp [h])

lemma markIncomplete_listing (E : Env) (s : DBState) (id : String) (d : Nat)
    (p : String) :
    (DB.list E (DB.markIncomplete s id).state (some d) (some p)).map
        (·.sortOrder)
      = (DB.list E s (some d) (some p)).map (·.sortOrder) := by
  rcases hchk : DB.checkExists s id with e | u
  · rw [DB.markIncomplete, hchk]
  · rw [DB.markIncomplete, hchk]
    exact op_listing_sortOrders E d p s _
      (fun t => by by_cases h : t.id = id <;> simp [h])
      (fun t => by by_cases h : t.id = id <;> simp [h])
      (fun t => by by_cases h : t.id = id <;> simp [h])

/-- C2 (amended): the dense zero-based sortOrder invariant is not preserved
by every operation — `create` (and hence `copyIncompletes`) assigns
`list(day).length + 1` and breaks it (see the counterexample) — but:
`update`, `markComplete` and `markIncomplete` leave the sortOrder sequence
of every bucket listing unchanged; `clearPeriod` empties the target
listing and leaves any listing of a different period or of a disjoint day
window unchanged; and a successful `updateOrder` whose ids enumerate the
whole bucket (a permutation of the bucket's ids, with store ids distinct)
leaves that bucket's sorted listing with sortOrders exactly
[0, 1, ..., n-1]. -/
theorem claim2_amended_density (E : Env) (s : DBState) (day : Nat)
    (p : String) :
    (∀ (id nm : String) (d' : Nat) (p' : String),
      (DB.list E (DB.update s id nm).state (some d') (some p')).map
          (·.sortOrder)
        = (DB.list E s (some d') (some p')).map (·.sortOrder))
    ∧ (∀ (id : String) (d' : Nat) (p' : String),
      (DB.list E (DB.markComplete s id).state (some d') (some p')).map
          (·.sortOrder)
        = (DB.list E s (some d') (some p')).map (·.sortOrder))
    ∧ (∀ (id : String) (d' : Nat) (p' : String),
      (DB.list E (DB.markIncomplete s id).state (some d') (some p')).map
          (·.sortOrder)
        = (DB.list E s (some d') (some p')).map (·.sortOrder))
    ∧ (DB.list E (DB.clearPeriod E s day p).state (some day) (some p) = [])
    ∧ (∀ (d' : Nat) (p' : String), p' ≠ p →
        DB.list E (DB.clearPeriod E s day p).state (some d') (some p')
          = DB.list E s (some d') (some p'))
    ∧ (∀ (d' : Nat) (p' : String),
        E.endOfDay d' ≤ E.startOfDay day ∨ E.endOfDay day ≤ E.startOfDay d' →
        DB.list E (DB.clearPeriod E s day p).state (some d') (some p')
          = DB.list E s (some d') (some p'))
    ∧ (∀ orderedIds : List String,
        (s.tasks.map (·.id)).Nodup →
        List.Perm orderedIds
          ((DB.list E s (some day) (some p)).map (·.id)) →
        (DB.updateOrder E s day p orderedIds).err = none
        ∧ (DB.list E (DB.updateOrder E s day p orderedIds).state (some day)
              (some p)).map (·.sortOrder)
            = List.range (DB.list E s (some day) (some p)).length) := by
  refine ⟨fun id nm d' p' => update_listing E s id nm d' p',
    fun id d' p' => markComplete_listing E s id d' p',
    fun id d' p' => markIncomplete_listing E s id d' p',
    clearPeriod_target E s day p, fun d' p' hne => ?_, fun d' p' hw => ?_,
    fun orderedIds hnd hperm => updateOrder_full_dense E s day p orderedIds
      hnd hperm⟩
  · apply clearPeriod_frame
    intro t _ hbp'
    have hper : t.period = p' := by
      have h := hbp'
      unfold bucketPred at h
      rcases Bool.and_eq_true_iff.mp h with ⟨_, h2⟩
      exact eq_of_beq h2
    unfold bucketPred
    apply Bool.and_eq_false_iff.mpr
    right
    rw [hper]
    exact beq_eq_false_iff_ne.mpr hne
  · apply clearPeriod_frame
    intro t _ hbp'
    have hwin : E.startOfDay d' ≤ t.date ∧ t.date < E.endOfDay d' := by
      have h := hbp'
      unfold bucketPred inWindow at h
      rcases Bool.and_eq_true_iff.mp h with ⟨h1, _⟩
      rcases Bool.and_eq_true_iff.mp h1 with ⟨h2, h3⟩
      exact ⟨of_decide_eq_true h2, of_decide_eq_true h3⟩
    unfold bucketPred inWindow
    apply Bool.and_eq_false_iff.mpr
    left
    apply Bool.and_eq_false_iff.mpr
    rcases hw with hw | hw
    · left
      apply decide_eq_false
      omega
    · right
      apply decide_eq_false
      omega

/-- C2 is refuted as stated: starting from a fresh store (a reachable
state), a single `create` into the empty `(0, days)` bucket yields a bucket
whose only sortOrder is 1, not 0 — `create` counts `list(day)` across all
periods and adds one, so the dense {0..n-1} invariant fails. -/
theorem claim2_counterexample :
    ((DB.list testEnv
        (DB.create testEnv (DB.init none) "A" 0 "days").state
        (some 0) (some "days")).map (·.sortOrder)) = [1]
    ∧ ¬ List.Perm
        ((DB.list testEnv
            (DB.create testEnv (DB.init none) "A" 0 "days").state
            (some 0) (some "days")).map (·.sortOrder))
        (List.range
          (DB.list testEnv
              (DB.create testEnv (DB.init none) "A" 0 "days").state
              (some 0) (some "days")).length) := by
  decide

theorem claim2_amended_density_witness :
    DB.list testEnv (DB.clearPeriod testEnv stateAB 0 "days").state
        (some 0) (some "days") = []
    ∧ (DB.updateOrder testEnv stateCD 0 "days" ["D", "C"]).err = none
    ∧ (DB.list testEnv
          (DB.updateOrder testEnv stateCD 0 "days" ["D", "C"]).state
          (some 0) (some "days")).map (·.sortOrder)
        = List.range (DB.list testEnv stateCD (some 0) (some "days")).length :=
  ⟨(claim2_amended_density testEnv stateAB 0 "days").2.2.2.1,
   ((claim2_amended_density testEnv stateCD 0 "days").2.2.2.2.2.2
      ["D", "C"] (by decide) (by decide)).1,
   ((claim2_amended_density testEnv stateCD 0 "days").2.2.2.2.2.2
      ["D", "C"] (by decide) (by decide)).2⟩

end Planner
